import Mathlib

/-!
Shallow embedding of the InfluxDB C++ HTTP transport (src/HTTP.cxx) and the
transport factory (src/InfluxDBFactory.cxx).

C++ strings are modelled as `List Char`; `std::string::find` as `findSub`
(returning `Option Nat` instead of `npos`); thrown exceptions as the
`Except CxxError` monad; `std::optional` as `Option`; `size_t` index
arithmetic with its wraparound modulo `2 ^ 64` where the code relies on it.
-/

namespace InfluxSpec

deriving instance DecidableEq for Except

/-- Character list of a Lean string literal (convenience for writing the
C++ string constants that appear in the source). -/
def str (s : String) : List Char := s.data

/-- `takesPrefix pat s` is true when `pat` is a prefix of `s`
(character-by-character comparison, as `std::string::compare` would do). -/
def takesPrefix : List Char → List Char → Bool
  | [], _ => true
  | _ :: _, [] => false
  | a :: as, b :: bs => a == b && takesPrefix as bs

/-- `std::string::find(pat)`: index of the first occurrence of `pat` in `s`,
`none` standing for `npos`. -/
def findSub (pat : List Char) : List Char → Option Nat
  | [] => if takesPrefix pat ([]) then some 0 else none
  | c :: t => if takesPrefix pat (c :: t) then some 0 else (findSub pat t).map (· + 1)

/-- The exceptions the embedded code can throw: `std::out_of_range` from
`std::string::at`, `std::bad_optional_access` from `std::optional::value`,
and `InfluxDBException` with its message. -/
inductive CxxError where
  | outOfRange : CxxError
  | badOptionalAccess : CxxError
  | influxDB : List Char → CxxError
deriving DecidableEq

/-- `Transport::EndpointVersion` is a C++ `enum class`; its values live in the
underlying integer type, so a value outside the two enumerators is
representable (the source's `parameters()` even has a fall-through throw for
that case). -/
structure EndpointVersion where
  code : Int
deriving DecidableEq

def EndpointVersion.v1 : EndpointVersion := ⟨0⟩

def EndpointVersion.v2 : EndpointVersion := ⟨1⟩

/-- `parseUrl` (HTTP.cxx:50): split at the first `?`; if the character just
before the `?` is `/`, drop it too.  `url.at(questionMarkPosition - 1)` is
`size_t` arithmetic, so when the `?` is at index 0 the index wraps to
`2 ^ 64 - 1` and `at` throws `std::out_of_range`. -/
def parseUrl (url : List Char) : Except CxxError (List Char) :=
  match findSub (['?']) url with
  | none => Except.ok url
  | some questionMarkPosition =>
    let idx := (questionMarkPosition + (2 ^ 64 - 1)) % 2 ^ 64
    match url[idx]? with
    | none => Except.error CxxError.outOfRange
    | some c =>
      if c = '/' then Except.ok (url.take idx)
      else Except.ok (url.take questionMarkPosition)

/-- The search pattern `"?" + name + "="` used by `parseParameter`. -/
def qpat (name : List Char) : List Char := '?' :: (name ++ ['='])

/-- The search pattern `"&" + name + "="` used by `parseParameter`. -/
def apat (name : List Char) : List Char := '&' :: (name ++ ['='])

/-- `parseParameter` (HTTP.cxx:65): look for `?name=`, then `&name=`; absent
means `none`; otherwise take the substring after the `=`, truncated at the
next `&`. -/
def parseParameter (url name : List Char) : Option (List Char) :=
  let pos := match findSub (qpat name) url with
    | some p => some p
    | none => findSub (apat name) url
  match pos with
  | none => none
  | some p =>
    let substr := url.drop (p + 2 + name.length)
    match findSub (['&']) substr with
    | none => some substr
    | some separatorPos => some (substr.take separatorPos)

def parseDatabaseName (url : List Char) : Option (List Char) :=
  parseParameter url (str ("db"))

def parseRetentionPolicy (url : List Char) : Option (List Char) :=
  parseParameter url (str ("rp"))

def parseBucket (url : List Char) : Option (List Char) :=
  parseParameter url (str ("bucket"))

def parseOrganization (url : List Char) : Option (List Char) :=
  parseParameter url (str ("org"))

/-- The state of a constructed `HTTP` transport: its parsed fields plus the
session state the operations read (`header` set by `setApiToken`, the basic
auth installed by `setBasicAuthentication`). -/
structure HTTPState where
  endpointUrl : List Char
  databaseName : Option (List Char)
  retentionPolicyName : Option (List Char)
  bucketName : Option (List Char)
  organization : Option (List Char)
  endpointVersion : EndpointVersion
  header : List (List Char × List Char)
  basicAuth : Option (List Char × List Char)
deriving DecidableEq

/-- `HTTP::HTTP` (HTTP.cxx:107): parse the endpoint and the four optional
parameters, then validate the version-specific requirements; any violation
throws before the object exists.  The `else` branch treats every version code
other than `v1` as v2, exactly as the source's `if/else` does. -/
def HTTP.construct (url : List Char) (version : EndpointVersion) :
    Except CxxError HTTPState :=
  match parseUrl url with
  | Except.error e => Except.error e
  | Except.ok endpointUrl =>
    let databaseName := parseDatabaseName url
    let retentionPolicyName := parseRetentionPolicy url
    let bucketName := parseBucket url
    let organization := parseOrganization url
    if version = EndpointVersion.v1 then
      if databaseName.isSome = false then
        Except.error (CxxError.influxDB (str ("No Database specified in URL")))
      else if bucketName.isSome then
        Except.error (CxxError.influxDB
          (str ("Bucket provided in URL but not supported for endpoint v1")))
      else
        Except.ok ⟨endpointUrl, databaseName, retentionPolicyName, bucketName,
          organization, version, [], none⟩
    else
      if databaseName.isSome then
        Except.error (CxxError.influxDB
          (str ("Database provided in URL but not supported for endpoint v2")))
      else if retentionPolicyName.isSome then
        Except.error (CxxError.influxDB
          (str ("Retention policy provided in URL but not supported for endpoint v2")))
      else if bucketName.isSome = false then
        Except.error (CxxError.influxDB
          (str ("Bucket is required as URL parameter for endpoint version v2")))
      else if organization.isSome = false then
        Except.error (CxxError.influxDB
          (str ("Organization is required as URL parameter for endpoint version v2")))
      else
        Except.ok ⟨endpointUrl, databaseName, retentionPolicyName, bucketName,
          organization, version, [], none⟩

/-- `HTTP::parameters` (HTTP.cxx:144): the version-specific query parameters,
as the ordered list `cpr::Parameters` accumulates them.  `optional::value()`
on an empty optional throws `std::bad_optional_access`. -/
def HTTP.parameters (s : HTTPState) : Except CxxError (List (List Char × List Char)) :=
  if s.endpointVersion = EndpointVersion.v1 then
    match s.databaseName with
    | none => Except.error CxxError.badOptionalAccess
    | some db =>
      match s.retentionPolicyName with
      | some rp => Except.ok [(str ("db"), db), (str ("rp"), rp)]
      | none => Except.ok [(str ("db"), db)]
  else if s.endpointVersion = EndpointVersion.v2 then
    match s.organization with
    | none => Except.error CxxError.badOptionalAccess
    | some org =>
      match s.bucketName with
      | none => Except.error CxxError.badOptionalAccess
      | some bucket => Except.ok [(str ("org"), org), (str ("bucket"), bucket)]
  else
    Except.error (CxxError.influxDB (str ("Not implemented for current endpoint version")))

/-! `cpr::Header` is a `std::map<std::string, std::string, CaseInsensitiveCompare>`.
We model it as an association list looked up with case-insensitive key
comparison; `std::map::insert` inserts only when no equivalent key is already
present, and `operator[]` assigns through an existing equivalent key. -/

/-- Case-insensitive key equivalence of `cpr::CaseInsensitiveCompare`. -/
def keyEq (a b : List Char) : Bool := a.map Char.toLower == b.map Char.toLower

/-- Map lookup: the value of the first entry with an equivalent key. -/
def lookupH (m : List (List Char × List Char)) (k : List Char) : Option (List Char) :=
  (m.find? (fun p => keyEq p.1 k)).map (fun p => p.2)

/-- `std::map::insert` of one entry: a no-op when an equivalent key exists. -/
def insertH (m : List (List Char × List Char)) (e : List Char × List Char) :
    List (List Char × List Char) :=
  if (lookupH m e.1).isSome then m else m ++ [e]

/-- `std::map::insert(first, last)`: insert each entry of `src` in turn. -/
def insertRange (dst src : List (List Char × List Char)) :
    List (List Char × List Char) :=
  src.foldl insertH dst

/-- `std::map::operator[] = v`: assign through an existing equivalent key,
else insert. -/
def mapAssign (m : List (List Char × List Char)) (k v : List Char) :
    List (List Char × List Char) :=
  if (lookupH m k).isSome then
    m.map (fun p => if keyEq p.1 k then (p.1, v) else p)
  else m ++ [(k, v)]

/-- `HTTP::setApiToken` (HTTP.cxx:186): `header["Authorization"] = "Token " + apiToken`. -/
def HTTP.setApiToken (s : HTTPState) (apiToken : List Char) : HTTPState :=
  { s with header := mapAssign s.header (str ("Authorization")) (str ("Token ") ++ apiToken) }

/-- `HTTP::setBasicAuthentication` (HTTP.cxx:181): install basic auth on the session. -/
def HTTP.setBasicAuthentication (s : HTTPState) (user pass : List Char) : HTTPState :=
  { s with basicAuth := some (user, pass) }

inductive Method where
  | get : Method
  | post : Method
deriving DecidableEq

/-- The request an operation configures on the session and issues: final URL,
ordered query parameters, the header map the operation sets (`none` when the
operation does not call `SetHeader`), the body it sets, and the HTTP method. -/
structure HTTPRequest where
  url : List Char
  params : List (List Char × List Char)
  headers : Option (List (List Char × List Char))
  body : Option (List Char)
  method : Method
deriving DecidableEq

/-- `HTTP::query` (HTTP.cxx:166): GET `{endpoint}/query` with the version
parameters plus `q = query`; no body and no header are set by this operation. -/
def HTTP.query (s : HTTPState) (query : List Char) : Except CxxError HTTPRequest :=
  match HTTP.parameters s with
  | Except.error e => Except.error e
  | Except.ok ps =>
    Except.ok ⟨s.endpointUrl ++ str ("/query"), ps ++ [(str ("q"), query)],
      none, none, Method.get⟩

/-- `HTTP::execute` (HTTP.cxx:218): identical mechanics to `query`. -/
def HTTP.execute (s : HTTPState) (cmd : List Char) : Except CxxError HTTPRequest :=
  match HTTP.parameters s with
  | Except.error e => Except.error e
  | Except.ok ps =>
    Except.ok ⟨s.endpointUrl ++ str ("/query"), ps ++ [(str ("q"), cmd)],
      none, none, Method.get⟩

/-- `HTTP::send` (HTTP.cxx:191): POST `{endpoint}/write` with the version
parameters, the base `Content-Type: application/json` header range-inserted
with the caller headers, and the line-protocol payload as the body. -/
def HTTP.send (s : HTTPState) (lineprotocol : List Char) : Except CxxError HTTPRequest :=
  match HTTP.parameters s with
  | Except.error e => Except.error e
  | Except.ok ps =>
    Except.ok ⟨s.endpointUrl ++ str ("/write"), ps,
      some (insertRange [(str ("Content-Type"), str ("application/json"))] s.header),
      some lineprotocol, Method.post⟩

/-- `HTTP::createDatabase` (HTTP.cxx:233): throws for any version other than
v1 before touching the session; for v1, POST `{endpoint}/query` with the
single parameter `q = "CREATE DATABASE " + databaseName.value()`. -/
def HTTP.createDatabase (s : HTTPState) : Except CxxError HTTPRequest :=
  if s.endpointVersion ≠ EndpointVersion.v1 then
    Except.error (CxxError.influxDB (str ("Database only supported for endpoint v1")))
  else
    match s.databaseName with
    | none => Except.error CxxError.badOptionalAccess
    | some db =>
      Except.ok ⟨s.endpointUrl ++ str ("/query"),
        [(str ("q"), str ("CREATE DATABASE ") ++ db)], none, none, Method.post⟩

/-- The fields of a `cpr::Response` that `checkResponse` and the operations
read: `error.code` (0 is `ErrorCode::OK`, so `resp.error` is truthy exactly
when the code is nonzero), `error.message`, `status_code`, `reason`, `text`. -/
structure Response where
  errorCode : Int
  errorMessage : List Char
  statusCode : Int
  reason : List Char
  text : List Char
deriving DecidableEq

/-- `cpr::status::is_success`: `200 <= code && code < 300`. -/
def isSuccessStatus (code : Int) : Bool := 200 ≤ code && code < 300

/-- `std::to_string` on an integer. -/
def intToStr (i : Int) : List Char :=
  if i < 0 then '-' :: Nat.toDigits 10 i.natAbs else Nat.toDigits 10 i.toNat

/-- `checkResponse` (HTTP.cxx:37): a transport error throws first, then a
non-success status; the messages embed the numeric code and the (possibly
empty) diagnostic exactly as the source concatenates them. -/
def checkResponse (r : Response) : Except CxxError Unit :=
  if r.errorCode ≠ 0 then
    Except.error (CxxError.influxDB
      (str ("Request error: (") ++ intToStr r.errorCode ++ str (") ") ++ r.errorMessage))
  else if isSuccessStatus r.statusCode then Except.ok ()
  else
    Except.error (CxxError.influxDB
      (str ("Request failed: (") ++ intToStr r.statusCode ++ str (") ") ++ r.reason))

/-- `checkResponse(response); return response.text;` as `query`/`execute` do. -/
def handleResponse (r : Response) : Except CxxError (List Char) :=
  match checkResponse r with
  | Except.error e => Except.error e
  | Except.ok _ => Except.ok r.text

/-- Modelled from the spec: `http::url`, the result of `http::ParseHttpUrl`
(UriParser.h is not under src/).  The factory only reads the scheme, the
embedded user-info and the full URL text, so the model takes the parsed
record as input. -/
structure ParsedUrl where
  protocol : List Char
  user : List Char
  password : List Char
  url : List Char
deriving DecidableEq

/-- The transport the factory returns.  The sibling transports are opaque:
their constructors are not under src/. -/
inductive TransportKind where
  | http : HTTPState → TransportKind
  | udp : TransportKind
  | tcp : TransportKind
  | unixSocket : TransportKind
deriving DecidableEq

/-- `internal::withHttpTransport` (InfluxDBFactory.cxx:42): construct the HTTP
transport from the full URL; when the parsed URL carries a non-empty user,
apply basic authentication with that user and password. -/
def withHttpTransport (uri : ParsedUrl) (version : EndpointVersion) :
    Except CxxError TransportKind :=
  match HTTP.construct uri.url version with
  | Except.error e => Except.error e
  | Except.ok t =>
    Except.ok (TransportKind.http
      (if uri.user ≠ [] then HTTP.setBasicAuthentication t uri.user uri.password else t))

/-- Modelled from the spec: `internal::withUdpTransport` (BoostSupport, not
under src/) — a sibling transport out of scope, represented opaquely. -/
def withUdpTransport (_uri : ParsedUrl) (_version : EndpointVersion) :
    Except CxxError TransportKind :=
  Except.ok TransportKind.udp

/-- Modelled from the spec: `internal::withTcpTransport` (BoostSupport, not
under src/) — a sibling transport out of scope, represented opaquely. -/
def withTcpTransport (_uri : ParsedUrl) (_version : EndpointVersion) :
    Except CxxError TransportKind :=
  Except.ok TransportKind.tcp

/-- Modelled from the spec: `internal::withUnixSocketTransport` (BoostSupport,
not under src/) — a sibling transport out of scope, represented opaquely. -/
def withUnixSocketTransport (_uri : ParsedUrl) (_version : EndpointVersion) :
    Except CxxError TransportKind :=
  Except.ok TransportKind.unixSocket

/-- `InfluxDBFactory::GetTransport` (InfluxDBFactory.cxx:54): reject an empty
scheme, dispatch on the fixed scheme table `{udp, tcp, http, https, unix}`,
and reject any other scheme naming it in the message. -/
def GetTransport (parsedUrl : ParsedUrl) (version : EndpointVersion) :
    Except CxxError TransportKind :=
  if parsedUrl.protocol = [] then
    Except.error (CxxError.influxDB (str ("Ill-formed URI")))
  else if parsedUrl.protocol = str ("udp") then withUdpTransport parsedUrl version
  else if parsedUrl.protocol = str ("tcp") then withTcpTransport parsedUrl version
  else if parsedUrl.protocol = str ("http") then withHttpTransport parsedUrl version
  else if parsedUrl.protocol = str ("https") then withHttpTransport parsedUrl version
  else if parsedUrl.protocol = str ("unix") then withUnixSocketTransport parsedUrl version
  else
    Except.error (CxxError.influxDB (str ("Unrecognized backend ") ++ parsedUrl.protocol))

/-- `orElse` on options, written out for use in theorem statements. -/
def orElseO (a b : Option (List Char)) : Option (List Char) :=
  match a with
  | some x => some x
  | none => b

/-! ### Basic lemmas about the string-search primitives -/

lemma takesPrefix_length (pat : List Char) (s : List Char)
    (h : takesPrefix pat s = true) : pat.length ≤ s.length := by
  induction pat generalizing s with
  | nil => exact Nat.zero_le _
  | cons a as ih =>
    cases s with
    | nil => simp [takesPrefix] at h
    | cons b bs =>
      simp only [takesPrefix, Bool.and_eq_true, beq_iff_eq] at h
      simpa using ih bs h.2

lemma findSub_bound (pat s : List Char) (i : Nat)
    (h : findSub pat s = some i) : i + pat.length ≤ s.length := by
  induction s generalizing i with
  | nil =>
    simp only [findSub] at h
    by_cases hp : takesPrefix pat ([]) = true
    · rw [if_pos hp] at h
      obtain rfl : (0 : Nat) = i := by injection h
      simpa using takesPrefix_length pat ([]) hp
    · rw [if_neg hp] at h
      cases h
  | cons c t ih =>
    simp only [findSub] at h
    by_cases hp : takesPrefix pat (c :: t) = true
    · rw [if_pos hp] at h
      obtain rfl : (0 : Nat) = i := by injection h
      simpa using takesPrefix_length pat (c :: t) hp
    · rw [if_neg hp] at h
      cases hf : findSub pat t with
      | none => rw [hf] at h; simp at h
      | some j =>
        rw [hf] at h
        simp only [Option.map_some', Option.some.injEq] at h
        have := ih j hf
        simp only [List.length_cons]
        omega

lemma findSub_char_none (c : Char) (v : List Char) (h : c ∉ v) :
    findSub ([c]) v = none := by
  induction v with
  | nil => simp [findSub, takesPrefix]
  | cons a t ih =>
    simp only [List.mem_cons, not_or] at h
    simp [findSub, takesPrefix, h.1, ih h.2]

lemma findSub_char_app (c : Char) (v t : List Char) (h : c ∉ v) :
    findSub ([c]) (v ++ c :: t) = some v.length := by
  induction v with
  | nil => simp [findSub, takesPrefix]
  | cons a vs ih =>
    simp only [List.mem_cons, not_or] at h
    simp [findSub, takesPrefix, List.cons_append, h.1, ih h.2]

lemma sizeSub1 (i : Nat) (h1 : 1 ≤ i) (h2 : i < 2 ^ 64) :
    (i + (2 ^ 64 - 1)) % 2 ^ 64 = i - 1 := by
  have he : i + (2 ^ 64 - 1) = (i - 1) + 2 ^ 64 := by omega
  rw [he, Nat.add_mod_right, Nat.mod_eq_of_lt (by omega)]

lemma sizeSub0 : ((0 : Nat) + (2 ^ 64 - 1)) % 2 ^ 64 = 2 ^ 64 - 1 := by
  rw [Nat.zero_add, Nat.mod_eq_of_lt (by omega)]

lemma parseUrl_eq_of_none (url : List Char) (hf : findSub (['?']) url = none) :
    parseUrl url = Except.ok url := by
  simp [parseUrl, hf]

lemma parseUrl_eq_of_slash (url : List Char) (i : Nat) (hlen : url.length < 2 ^ 64)
    (hf : findSub (['?']) url = some i) (hi : 0 < i) (hc : url[i - 1]? = some '/') :
    parseUrl url = Except.ok (url.take (i - 1)) := by
  have hb := findSub_bound (['?']) url i hf
  simp only [List.length_cons, List.length_nil] at hb
  have hidx : (i + 18446744073709551615) % 18446744073709551616 = i - 1 :=
    sizeSub1 i hi (by omega)
  simp [parseUrl, hf, hidx, hc]

lemma parseUrl_eq_of_other (url : List Char) (i : Nat) (c : Char)
    (hlen : url.length < 2 ^ 64) (hf : findSub (['?']) url = some i) (hi : 0 < i)
    (hc : url[i - 1]? = some c) (hne : c ≠ '/') :
    parseUrl url = Except.ok (url.take i) := by
  have hb := findSub_bound (['?']) url i hf
  simp only [List.length_cons, List.length_nil] at hb
  have hidx : (i + 18446744073709551615) % 18446744073709551616 = i - 1 :=
    sizeSub1 i hi (by omega)
  simp [parseUrl, hf, hidx, hc, hne]

lemma parseUrl_crash (url : List Char) (hlen : url.length < 2 ^ 64)
    (hf : findSub (['?']) url = some 0) :
    parseUrl url = Except.error CxxError.outOfRange := by
  have hnone : url[(18446744073709551615 : Nat)]? = none := by
    apply List.getElem?_eq_none
    omega
  simp [parseUrl, hf, sizeSub0, hnone]

lemma parseUrl_ok (url : List Char) (hlen : url.length < 2 ^ 64)
    (hq : findSub (['?']) url ≠ some 0) : ∃ e, parseUrl url = Except.ok e := by
  cases hf : findSub (['?']) url with
  | none => exact ⟨url, parseUrl_eq_of_none url hf⟩
  | some i =>
    have hi : 0 < i := by
      rcases Nat.eq_zero_or_pos i with h0 | h0
      · exact absurd (h0 ▸ hf) hq
      · exact h0
    have hb := findSub_bound (['?']) url i hf
    simp only [List.length_cons, List.length_nil] at hb
    have hlt : i - 1 < url.length := by omega
    have hsome : url[i - 1]? = some url[i - 1] := List.getElem?_eq_getElem hlt
    by_cases hc : url[i - 1] = '/'
    · exact ⟨url.take (i - 1), parseUrl_eq_of_slash url i hlen hf hi (hc ▸ hsome)⟩
    · exact ⟨url.take i, parseUrl_eq_of_other url i (url[i - 1]) hlen hf hi hsome hc⟩

/-! ### Claim theorems -/

/-- C5 (as amended): for every URL (of a length representable in `size_t`)
whose first `?`, if any, is not at index 0: without a `?` the endpoint is the
full URL unchanged; when the character immediately before the first `?` is
`/`, that separator is dropped from the returned prefix; otherwise the prefix
before the first `?` is returned. -/
theorem C5_parseUrl_spec (url : List Char) (hlen : url.length < 2 ^ 64) :
    (findSub (['?']) url = none → parseUrl url = Except.ok url)
    ∧ (∀ i, findSub (['?']) url = some i → 0 < i → url[i - 1]? = some '/' →
        parseUrl url = Except.ok (url.take (i - 1)))
    ∧ (∀ i c, findSub (['?']) url = some i → 0 < i → url[i - 1]? = some c →
        c ≠ '/' → parseUrl url = Except.ok (url.take i)) := by
  refine ⟨parseUrl_eq_of_none url, ?_, ?_⟩
  · intro i hf hi hc
    exact parseUrl_eq_of_slash url i hlen hf hi hc
  · intro i c hf hi hc hne
    exact parseUrl_eq_of_other url i c hlen hf hi hc hne

/-- C5 counterexample: the claim quantifies over every URL string, but on a
URL whose first character is `?` the guard indexes out of range and `parseUrl`
raises instead of returning the prefix before the `?`. -/
theorem C5_counterexample :
    parseUrl (str ("?x")) = Except.error CxxError.outOfRange := by decide

/-- C5 witness: `http://h/?db=x` has its first `?` at index 9 preceded by `/`,
and the parsed endpoint drops both. -/
theorem C5_witness :
    parseUrl (str ("http://h/?db=x")) = Except.ok (str ("http://h")) := by
  have h := (C5_parseUrl_spec (str ("http://h/?db=x")) (by decide)).2.1 9
    (by decide) (by decide) (by decide)
  exact h

/-- C10: `parseUrl` is not total — a URL whose first character is `?` makes
the guard read index `questionMarkPosition - 1 = 2 ^ 64 - 1` in `size_t`
arithmetic, so transport construction raises `std::out_of_range` (not a
configuration error); for every URL whose first `?` is at a nonzero index,
and for every URL without `?`, `parseUrl` returns normally. -/
theorem C10_parseUrl_totality (url : List Char) (v : EndpointVersion)
    (hlen : url.length < 2 ^ 64) :
    (url.head? = some '?' → HTTP.construct url v = Except.error CxxError.outOfRange)
    ∧ (∀ i, findSub (['?']) url = some i → i ≠ 0 → (parseUrl url).isOk = true)
    ∧ (findSub (['?']) url = none → parseUrl url = Except.ok url) := by
  refine ⟨?_, ?_, parseUrl_eq_of_none url⟩
  · intro hh
    obtain ⟨t, rfl⟩ : ∃ t, url = '?' :: t := by
      cases url with
      | nil => simp at hh
      | cons a t =>
        simp only [List.head?_cons, Option.some.injEq] at hh
        exact ⟨t, by rw [hh]⟩
    have hf : findSub (['?']) ('?' :: t) = some 0 := by
      simp [findSub, takesPrefix]
    have hp := parseUrl_crash ('?' :: t) hlen hf
    simp [HTTP.construct, hp]
  · intro i hf hi
    obtain ⟨e, he⟩ := parseUrl_ok url hlen (by rw [hf]; simp [hi])
    simp [he, Except.isOk, Except.toBool]

/-- C10 witness: constructing a transport from `?db=x` (first character `?`)
raises the out-of-range error. -/
theorem C10_witness :
    HTTP.construct (str ("?db=x")) EndpointVersion.v1 =
      Except.error CxxError.outOfRange :=
  (C10_parseUrl_totality (str ("?db=x")) EndpointVersion.v1 (by decide)).1 (by decide)

/-- C4: `parseParameter` finds a named parameter whether it is the first
query parameter (`?name=`) or a subsequent one (`&name=`), the value ending
at the next `&` or at the end of the string; an absent parameter yields
`none` rather than an error. -/
theorem C4_parseParameter_spec :
    (∀ url name, findSub (qpat name) url = none → findSub (apat name) url = none →
      parseParameter url name = none)
    ∧ (∀ p name v r, findSub (qpat name) (p ++ qpat name ++ v ++ r) = some p.length →
        '&' ∉ v → (r = [] ∨ ∃ t, r = '&' :: t) →
        parseParameter (p ++ qpat name ++ v ++ r) name = some v)
    ∧ (∀ p name v r, findSub (qpat name) (p ++ apat name ++ v ++ r) = none →
        findSub (apat name) (p ++ apat name ++ v ++ r) = some p.length →
        '&' ∉ v → (r = [] ∨ ∃ t, r = '&' :: t) →
        parseParameter (p ++ apat name ++ v ++ r) name = some v) := by
  refine ⟨?_, ?_, ?_⟩
  · intro url name h1 h2
    simp [parseParameter, h1, h2]
  · intro p name v r hf hv hr
    have hdrop : (p ++ qpat name ++ v ++ r).drop (p.length + 2 + name.length)
        = v ++ r := by
      have h1 : p ++ qpat name ++ v ++ r = (p ++ qpat name) ++ (v ++ r) := by
        simp [List.append_assoc]
      have h2 : (p ++ qpat name).length = p.length + 2 + name.length := by
        simp [qpat, List.length_append, List.length_cons]
        omega
      rw [h1, ← h2, List.drop_left]
    rcases hr with rfl | ⟨t, rfl⟩
    · have hn := findSub_char_none '&' v hv
      simp only [List.append_assoc, List.append_nil] at hf hdrop
      simp [parseParameter, hf, hdrop, hn]
    · have ha := findSub_char_app '&' v t hv
      simp only [List.append_assoc] at hf hdrop
      simp [parseParameter, hf, hdrop, ha, List.take_left]
  · intro p name v r hq hf hv hr
    have hdrop : (p ++ apat name ++ v ++ r).drop (p.length + 2 + name.length)
        = v ++ r := by
      have h1 : p ++ apat name ++ v ++ r = (p ++ apat name) ++ (v ++ r) := by
        simp [List.append_assoc]
      have h2 : (p ++ apat name).length = p.length + 2 + name.length := by
        simp [apat, List.length_append, List.length_cons]
        omega
      rw [h1, ← h2, List.drop_left]
    rcases hr with rfl | ⟨t, rfl⟩
    · have hn := findSub_char_none '&' v hv
      simp only [List.append_assoc, List.append_nil] at hq hf hdrop
      simp [parseParameter, hq, hf, hdrop, hn]
    · have ha := findSub_char_app '&' v t hv
      simp only [List.append_assoc] at hq hf hdrop
      simp [parseParameter, hq, hf, hdrop, ha, List.take_left]

/-- C4 witness: `db` is extracted as the first query parameter of
`http://h/?db=1&x=2`, with the value truncated at the following `&`. -/
theorem C4_witness :
    parseParameter ((str ("http://h/")) ++ qpat (str ("db")) ++ str ("1") ++ str ("&x=2"))
      (str ("db")) = some (str ("1")) :=
  C4_parseParameter_spec.2.1 (str ("http://h/")) (str ("db")) (str ("1")) (str ("&x=2"))
    (by decide) (by decide) (Or.inr ⟨str ("x=2"), by decide⟩)

lemma construct_error_form (url : List Char) (v : EndpointVersion) (e : List Char)
    (hp : parseUrl url = Except.ok e) (err : CxxError)
    (h : HTTP.construct url v = Except.error err) : ∃ m, err = CxxError.influxDB m := by
  unfold HTTP.construct at h
  rw [hp] at h
  by_cases hv : v = EndpointVersion.v1 <;>
    rcases hdb : parseDatabaseName url with _ | d <;>
    rcases hbk : parseBucket url with _ | b <;>
    rcases hrp : parseRetentionPolicy url with _ | rp <;>
    rcases hor : parseOrganization url with _ | o <;>
    simp [hv, hdb, hbk, hrp, hor] at h <;>
    exact ⟨_, h.symm⟩

/-- C1 counterexample: under V1 the code accepts a URL whose `db` value is
empty and which also supplies `org` — the constructor succeeds although the
claim requires a configuration error for either violation. -/
theorem C1_counterexample :
    (HTTP.construct (str ("http://h/?db=&org=o")) EndpointVersion.v1).isOk = true := by
  decide

/-- C1 (as amended): for every URL (of size_t-representable length) whose
endpoint parse does not fault (first `?` not at index 0): under V1
construction succeeds exactly when the URL supplies a `db` parameter (the
value may be empty) and supplies no `bucket` (`org` and `rp` are not
checked); under V2 it succeeds exactly when the URL supplies both `bucket`
and `org` and supplies neither `db` nor `rp`; every constructor failure is a
configuration error (`InfluxDBException`). -/
theorem C1_construct_spec (url : List Char) (hlen : url.length < 2 ^ 64)
    (hq : findSub (['?']) url ≠ some 0) :
    ((HTTP.construct url EndpointVersion.v1).isOk = true ↔
      ((parseDatabaseName url).isSome = true ∧ parseBucket url = none))
    ∧ ((HTTP.construct url EndpointVersion.v2).isOk = true ↔
      (parseDatabaseName url = none ∧ parseRetentionPolicy url = none ∧
       (parseBucket url).isSome = true ∧ (parseOrganization url).isSome = true))
    ∧ (∀ v, (HTTP.construct url v).isOk = false →
        ∃ m, HTTP.construct url v = Except.error (CxxError.influxDB m)) := by
  obtain ⟨e, he⟩ := parseUrl_ok url hlen hq
  refine ⟨?_, ?_, ?_⟩
  · rcases hdb : parseDatabaseName url with _ | d <;>
      rcases hbk : parseBucket url with _ | b <;>
      simp [HTTP.construct, he, hdb, hbk, Except.isOk, Except.toBool]
  · rcases hdb : parseDatabaseName url with _ | d <;>
      rcases hrp : parseRetentionPolicy url with _ | rp <;>
      rcases hbk : parseBucket url with _ | b <;>
      rcases hor : parseOrganization url with _ | o <;>
      simp [HTTP.construct, he, hdb, hrp, hbk, hor, Except.isOk, Except.toBool,
        EndpointVersion.v1, EndpointVersion.v2]
  · intro v hno
    cases hc : HTTP.construct url v with
    | ok s => rw [hc] at hno; simp [Except.isOk, Except.toBool] at hno
    | error err =>
      obtain ⟨m, rfl⟩ := construct_error_form url v e he err hc
      exact ⟨m, rfl⟩

/-- C1 witness: a V2 URL supplying both `bucket` and `org` and neither `db`
nor `rp` constructs successfully. -/
theorem C1_witness :
    (HTTP.construct (str ("http://h/?bucket=b&org=o")) EndpointVersion.v2).isOk = true :=
  ((C1_construct_spec (str ("http://h/?bucket=b&org=o")) (by decide) (by decide)).2.1).mpr
    (by decide)

lemma construct_ok_fields (url : List Char) (v : EndpointVersion) (s : HTTPState)
    (h : HTTP.construct url v = Except.ok s) :
    s.endpointVersion = v ∧ s.databaseName = parseDatabaseName url ∧
    s.retentionPolicyName = parseRetentionPolicy url ∧
    s.bucketName = parseBucket url ∧ s.organization = parseOrganization url ∧
    s.header = [] ∧
    (v = EndpointVersion.v1 →
      (parseDatabaseName url).isSome = true ∧ parseBucket url = none) ∧
    (v ≠ EndpointVersion.v1 →
      parseDatabaseName url = none ∧ parseRetentionPolicy url = none ∧
      (parseBucket url).isSome = true ∧ (parseOrganization url).isSome = true) := by
  unfold HTTP.construct at h
  cases hp : parseUrl url with
  | error e => rw [hp] at h; cases h
  | ok e =>
    rw [hp] at h
    by_cases hv : v = EndpointVersion.v1 <;>
      rcases hdb : parseDatabaseName url with _ | d <;>
      rcases hbk : parseBucket url with _ | b <;>
      rcases hrp : parseRetentionPolicy url with _ | rp <;>
      rcases hor : parseOrganization url with _ | o <;>
      simp [hv, hdb, hbk, hrp, hor] at h <;>
      (obtain rfl := h.symm) <;>
      simp [hv, hdb, hbk, hrp, hor]

/-- C3: for every successfully constructed transport, the parameter builder
yields exactly the version-specific ordered parameter list — under V1
`{db}` plus `{rp}` only when the retention policy is present; under V2
exactly `{org, bucket}` with `db`/`rp` never emitted — and any version code
outside the two enumerators makes it raise the unimplemented-operation
error instead of returning an empty set. -/
theorem C3_parameters_spec (url : List Char) (v : EndpointVersion) (s : HTTPState)
    (h : HTTP.construct url v = Except.ok s) :
    (v = EndpointVersion.v1 → ∃ d, s.databaseName = some d ∧
      HTTP.parameters s = Except.ok ((str ("db"), d) ::
        (match s.retentionPolicyName with
         | some rp => [(str ("rp"), rp)]
         | none => [])))
    ∧ (v = EndpointVersion.v2 → ∃ o b, s.organization = some o ∧ s.bucketName = some b ∧
      HTTP.parameters s = Except.ok [(str ("org"), o), (str ("bucket"), b)])
    ∧ (v ≠ EndpointVersion.v1 → v ≠ EndpointVersion.v2 →
      HTTP.parameters s = Except.error
        (CxxError.influxDB (str ("Not implemented for current endpoint version")))) := by
  obtain ⟨hver, hdb, hrp, hbk, hor, hhd, hv1, hv2⟩ := construct_ok_fields url v s h
  refine ⟨?_, ?_, ?_⟩
  · intro hv; subst hv
    obtain ⟨hsome, hnone⟩ := hv1 rfl
    obtain ⟨d, hd⟩ := Option.isSome_iff_exists.mp hsome
    refine ⟨d, hdb.trans hd, ?_⟩
    cases hrpv : s.retentionPolicyName with
    | none => simp [HTTP.parameters, hver, hdb.trans hd, hrpv]
    | some rp => simp [HTTP.parameters, hver, hdb.trans hd, hrpv]
  · intro hv; subst hv
    obtain ⟨hdn, hrn, hbs, hos⟩ := hv2 (by decide)
    obtain ⟨b, hb⟩ := Option.isSome_iff_exists.mp hbs
    obtain ⟨o, ho⟩ := Option.isSome_iff_exists.mp hos
    refine ⟨o, b, hor.trans ho, hbk.trans hb, ?_⟩
    simp [HTTP.parameters, hver, hor.trans ho, hbk.trans hb,
      EndpointVersion.v1, EndpointVersion.v2]
  · intro h1 h2
    simp [HTTP.parameters, hver, h1, h2]

/-- C3 witness: the V1 transport built from `?db=mydb&rp=autogen` yields
exactly `{db: mydb, rp: autogen}`. -/
theorem C3_witness :
    HTTP.parameters ⟨str ("http://h"), some (str ("mydb")), some (str ("autogen")),
      none, none, EndpointVersion.v1, [], none⟩ =
      Except.ok [(str ("db"), str ("mydb")), (str ("rp"), str ("autogen"))] := by
  have hc : HTTP.construct (str ("http://h/?db=mydb&rp=autogen")) EndpointVersion.v1 =
      Except.ok ⟨str ("http://h"), some (str ("mydb")), some (str ("autogen")),
        none, none, EndpointVersion.v1, [], none⟩ := by decide
  obtain ⟨d, hd, hp⟩ := (C3_parameters_spec _ _ _ hc).1 rfl
  have hd2 : d = str ("mydb") := by
    have h3 : some (str ("mydb")) = some d := hd
    injection h3 with h4
    exact h4.symm
  subst hd2
  simpa using hp

/-- C7: `createDatabase` on any transport whose version is not V1 raises the
unsupported-operation error immediately — the `Except.error` return models the
throw that happens before any session call is made — while on a V1 transport
it issues a POST to `{endpoint}/query` whose single parameter is
`q = "CREATE DATABASE {database}"`. -/
theorem C7_createDatabase_spec (url : List Char) (v : EndpointVersion) (s : HTTPState)
    (h : HTTP.construct url v = Except.ok s) :
    (v ≠ EndpointVersion.v1 → HTTP.createDatabase s =
      Except.error (CxxError.influxDB (str ("Database only supported for endpoint v1"))))
    ∧ (v = EndpointVersion.v1 → ∃ d, s.databaseName = some d ∧
      HTTP.createDatabase s = Except.ok ⟨s.endpointUrl ++ str ("/query"),
        [(str ("q"), str ("CREATE DATABASE ") ++ d)], none, none, Method.post⟩) := by
  obtain ⟨hver, hdb, hrp, hbk, hor, hhd, hv1, hv2⟩ := construct_ok_fields url v s h
  refine ⟨?_, ?_⟩
  · intro hne
    simp [HTTP.createDatabase, hver, hne]
  · intro hv; subst hv
    obtain ⟨hsome, hnone⟩ := hv1 rfl
    obtain ⟨d, hd⟩ := Option.isSome_iff_exists.mp hsome
    exact ⟨d, hdb.trans hd, by simp [HTTP.createDatabase, hver, hdb.trans hd]⟩

/-- C7 witness: `createDatabase` on a constructed V2 transport raises the
unsupported-operation error (no request value is produced). -/
theorem C7_witness :
    HTTP.createDatabase ⟨str ("http://h"), none, none, some (str ("b")), some (str ("o")),
      EndpointVersion.v2, [], none⟩ =
      Except.error (CxxError.influxDB (str ("Database only supported for endpoint v1"))) := by
  have hc : HTTP.construct (str ("http://h/?bucket=b&org=o")) EndpointVersion.v2 =
      Except.ok ⟨str ("http://h"), none, none, some (str ("b")), some (str ("o")),
        EndpointVersion.v2, [], none⟩ := by decide
  exact (C7_createDatabase_spec _ _ _ hc).1 (by decide)

/-- C6: the response check raises the transport-error exception (carrying the
numeric code and the possibly-empty message) whenever the transport reports
an error, taking precedence over the status check; otherwise a non-success
status raises the request-failed exception carrying the numeric status and
the reason phrase; otherwise the body is handed back verbatim. -/
theorem C6_checkResponse_spec (r : Response) :
    (r.errorCode ≠ 0 → checkResponse r = Except.error (CxxError.influxDB
      (str ("Request error: (") ++ intToStr r.errorCode ++ str (") ") ++ r.errorMessage)))
    ∧ (r.errorCode = 0 → isSuccessStatus r.statusCode = false →
      checkResponse r = Except.error (CxxError.influxDB
        (str ("Request failed: (") ++ intToStr r.statusCode ++ str (") ") ++ r.reason)))
    ∧ (r.errorCode = 0 → isSuccessStatus r.statusCode = true →
      handleResponse r = Except.ok r.text) := by
  refine ⟨?_, ?_, ?_⟩
  · intro h1
    simp [checkResponse, h1]
  · intro h1 h2
    simp [checkResponse, h1, h2]
  · intro h1 h2
    simp [handleResponse, checkResponse, h1, h2]

/-- C6 witness: a 404 response with reason `Not Found` raises the
request-failed exception whose message contains both `404` and `Not Found`;
a transport error code 7 with an empty message raises the request-error
exception without crashing on the empty diagnostic. -/
theorem C6_witness :
    checkResponse ⟨0, [], 404, str ("Not Found"), []⟩ =
      Except.error (CxxError.influxDB (str ("Request failed: (404) Not Found")))
    ∧ checkResponse ⟨7, [], 0, [], []⟩ =
      Except.error (CxxError.influxDB (str ("Request error: (7) "))) := by
  constructor
  · exact ((C6_checkResponse_spec ⟨0, [], 404, str ("Not Found"), []⟩).2.1 rfl
      (by decide)).trans (by decide)
  · exact ((C6_checkResponse_spec ⟨7, [], 0, [], []⟩).1 (by decide)).trans (by decide)

lemma parameters_no_q (s : HTTPState) (ps : List (List Char × List Char))
    (hp : HTTP.parameters s = Except.ok ps) : ∀ e ∈ ps, e.1 ≠ str ("q") := by
  unfold HTTP.parameters at hp
  by_cases hv : s.endpointVersion = EndpointVersion.v1
  · rw [if_pos hv] at hp
    cases hdb : s.databaseName with
    | none => rw [hdb] at hp; cases hp
    | some d =>
      rw [hdb] at hp
      cases hrp : s.retentionPolicyName with
      | none =>
        rw [hrp] at hp
        cases hp
        intro e he
        simp only [List.mem_singleton] at he
        subst he
        exact (by decide : str ("db") ≠ str ("q"))
      | some rp =>
        rw [hrp] at hp
        cases hp
        intro e he
        simp only [List.mem_cons, List.mem_singleton] at he
        rcases he with rfl | rfl | h
        · exact (by decide : str ("db") ≠ str ("q"))
        · exact (by decide : str ("rp") ≠ str ("q"))
        · cases h
  · rw [if_neg hv] at hp
    by_cases hw : s.endpointVersion = EndpointVersion.v2
    · rw [if_pos hw] at hp
      cases hor : s.organization with
      | none => rw [hor] at hp; cases hp
      | some o =>
        rw [hor] at hp
        cases hbk : s.bucketName with
        | none => rw [hbk] at hp; cases hp
        | some b =>
          rw [hbk] at hp
          cases hp
          intro e he
          simp only [List.mem_cons, List.mem_singleton] at he
          rcases he with rfl | rfl | h
          · exact (by decide : str ("org") ≠ str ("q"))
          · exact (by decide : str ("bucket") ≠ str ("q"))
          · cases h
    · rw [if_neg hw] at hp
      cases hp

/-- C8: on a constructed transport whose parameter builder yields `ps`, the
read operations `query` and `execute` issue the `/query` request with `ps`
followed by the extra parameter `q = text` and set no body, while `send`
issues the `/write` request with exactly `ps` (which never contains a `q`
key) and places the payload literally as the request body. -/
theorem C8_dispatch_spec (url : List Char) (v : EndpointVersion) (s : HTTPState)
    (text : List Char) (ps : List (List Char × List Char))
    (_h : HTTP.construct url v = Except.ok s) (hp : HTTP.parameters s = Except.ok ps) :
    HTTP.query s text = Except.ok ⟨s.endpointUrl ++ str ("/query"),
      ps ++ [(str ("q"), text)], none, none, Method.get⟩
    ∧ HTTP.execute s text = Except.ok ⟨s.endpointUrl ++ str ("/query"),
      ps ++ [(str ("q"), text)], none, none, Method.get⟩
    ∧ (∀ e ∈ ps, e.1 ≠ str ("q"))
    ∧ HTTP.send s text = Except.ok ⟨s.endpointUrl ++ str ("/write"), ps,
      some (insertRange [(str ("Content-Type"), str ("application/json"))] s.header),
      some text, Method.post⟩ :=
  ⟨by simp [HTTP.query, hp], by simp [HTTP.execute, hp],
   parameters_no_q s ps hp, by simp [HTTP.send, hp]⟩

/-- C8 witness: on the V1 transport for `db=mydb`, `query` carries
`{db: mydb, q: SELECT 1}` against `/query` with no body, and `send` carries
`{db: mydb}` against `/write` with the payload as body. -/
theorem C8_witness :
    HTTP.query ⟨str ("http://h"), some (str ("mydb")), none, none, none,
        EndpointVersion.v1, [], none⟩ (str ("SELECT 1")) =
      Except.ok ⟨str ("http://h/query"),
        [(str ("db"), str ("mydb")), (str ("q"), str ("SELECT 1"))],
        none, none, Method.get⟩
    ∧ HTTP.send ⟨str ("http://h"), some (str ("mydb")), none, none, none,
        EndpointVersion.v1, [], none⟩ (str ("cpu v=1")) =
      Except.ok ⟨str ("http://h/write"), [(str ("db"), str ("mydb"))],
        some [(str ("Content-Type"), str ("application/json"))],
        some (str ("cpu v=1")), Method.post⟩ := by
  have hc : HTTP.construct (str ("http://h/?db=mydb")) EndpointVersion.v1 =
      Except.ok ⟨str ("http://h"), some (str ("mydb")), none, none, none,
        EndpointVersion.v1, [], none⟩ := by decide
  have hps : HTTP.parameters ⟨str ("http://h"), some (str ("mydb")), none, none, none,
      EndpointVersion.v1, [], none⟩ = Except.ok [(str ("db"), str ("mydb"))] := by decide
  have h1 := (C8_dispatch_spec _ _ _ (str ("SELECT 1")) _ hc hps).1
  have h2 := (C8_dispatch_spec _ _ _ (str ("cpu v=1")) _ hc hps).2.2.2
  exact ⟨h1.trans (by decide), h2.trans (by decide)⟩

lemma keyEq_lookup (m : List (List Char × List Char)) (a b : List Char)
    (h : keyEq a b = true) : lookupH m a = lookupH m b := by
  have hab : a.map Char.toLower = b.map Char.toLower := by
    simpa [keyEq] using h
  unfold lookupH
  have he : (fun p : List Char × List Char => keyEq p.1 a)
      = (fun p : List Char × List Char => keyEq p.1 b) := by
    funext q
    unfold keyEq
    rw [hab]
  rw [he]

lemma lookupH_append (m n : List (List Char × List Char)) (k : List Char) :
    lookupH (m ++ n) k = orElseO (lookupH m k) (lookupH n k) := by
  induction m with
  | nil => simp [lookupH, orElseO]
  | cons q t ih =>
    by_cases hk : keyEq q.1 k = true
    · simp [lookupH, List.find?_cons, hk, orElseO]
    · simp only [List.cons_append, lookupH, List.find?_cons, hk] at ih ⊢
      simpa [lookupH] using ih

lemma lookup_insertRange (dst src : List (List Char × List Char)) (k : List Char) :
    lookupH (insertRange dst src) k = orElseO (lookupH dst k) (lookupH src k) := by
  induction src generalizing dst with
  | nil =>
    simp only [insertRange, List.foldl_nil]
    cases h : lookupH dst k <;> simp [lookupH, orElseO, h]
  | cons q t ih =>
    simp only [insertRange, List.foldl_cons]
    have hstep : List.foldl insertH (insertH dst q) t = insertRange (insertH dst q) t := rfl
    rw [hstep, ih]
    by_cases hd : (lookupH dst q.1).isSome = true
    · have hins : insertH dst q = dst := by simp [insertH, hd]
      rw [hins]
      by_cases hk : keyEq q.1 k = true
      · have hlk : lookupH dst k = lookupH dst q.1 := (keyEq_lookup dst q.1 k hk).symm
        obtain ⟨w, hw⟩ := Option.isSome_iff_exists.mp hd
        rw [hlk, hw]
        simp [orElseO]
      · have ht : lookupH (q :: t) k = lookupH t k := by
          simp [lookupH, List.find?_cons, hk]
        rw [ht]
    · have hd2 : lookupH dst q.1 = none := by
        cases h2 : lookupH dst q.1
        · rfl
        · rw [h2] at hd; simp at hd
      have hins : insertH dst q = dst ++ [q] := by simp [insertH, hd2]
      rw [hins, lookupH_append]
      cases hdk : lookupH dst k
      · by_cases hk : keyEq q.1 k = true <;>
          simp [orElseO, lookupH, List.find?_cons, hk]
      · simp [orElseO]

lemma insertRange_head (dst src : List (List Char × List Char)) :
    ∃ rest, insertRange dst src = dst ++ rest := by
  induction src generalizing dst with
  | nil => exact ⟨[], by simp [insertRange]⟩
  | cons q t ih =>
    simp only [insertRange, List.foldl_cons]
    have hstep : List.foldl insertH (insertH dst q) t = insertRange (insertH dst q) t := rfl
    rw [hstep]
    obtain ⟨r, hr⟩ := ih (insertH dst q)
    by_cases hd : (lookupH dst q.1).isSome = true
    · have hins : insertH dst q = dst := by simp [insertH, hd]
      rw [hins] at hr ⊢
      exact ⟨r, hr⟩
    · have hd2 : lookupH dst q.1 = none := by
        cases h2 : lookupH dst q.1
        · rfl
        · rw [h2] at hd; simp at hd
      have hins : insertH dst q = dst ++ [q] := by simp [insertH, hd2]
      rw [hins] at hr ⊢
      exact ⟨q :: r, by rw [hr, List.append_assoc]; rfl⟩

/-- C2 counterexample: a caller header colliding with the base
`Content-Type` does NOT win — `std::map::insert` skips keys already present,
so the merged header keeps the base value `application/json` and the caller
value `text/plain` is dropped, contradicting the claim that the caller wins. -/
theorem C2_counterexample :
    HTTP.send ⟨str ("http://h"), some (str ("d")), none, none, none,
      EndpointVersion.v1, [(str ("Content-Type"), str ("text/plain"))], none⟩ (str ("x")) =
    Except.ok ⟨str ("http://h/write"), [(str ("db"), str ("d"))],
      some [(str ("Content-Type"), str ("application/json"))], some (str ("x")),
      Method.post⟩ := by decide

/-- C2 (as amended): the headers `send` attaches are the deterministic merge
that places the base `{Content-Type: application/json}` first and then
applies the caller headers via map insertion, so every caller header under a
fresh (case-insensitively distinct) key is attached, while on a key collision
the base value wins because insertion does not overwrite an existing key. -/
theorem C2_header_merge_spec (s : HTTPState) (lp : List Char) (req : HTTPRequest)
    (h : HTTP.send s lp = Except.ok req) :
    ∃ hs, req.headers = some hs ∧
      (∃ rest, hs = (str ("Content-Type"), str ("application/json")) :: rest) ∧
      (∀ k, lookupH hs k =
        orElseO (lookupH [(str ("Content-Type"), str ("application/json"))] k)
          (lookupH s.header k)) := by
  unfold HTTP.send at h
  cases hp : HTTP.parameters s with
  | error e => rw [hp] at h; cases h
  | ok ps =>
    rw [hp] at h
    injection h with h2
    subst h2
    refine ⟨insertRange [(str ("Content-Type"), str ("application/json"))] s.header,
      rfl, ?_, fun k => lookup_insertRange _ _ _⟩
    obtain ⟨rest, hr⟩ :=
      insertRange_head [(str ("Content-Type"), str ("application/json"))] s.header
    exact ⟨rest, by rw [hr]; rfl⟩

/-- C2 witness: merging the base header with a caller `Authorization` header
(the one `setApiToken` installs) keeps the caller entry retrievable. -/
theorem C2_witness :
    lookupH (insertRange [(str ("Content-Type"), str ("application/json"))]
      [(str ("Authorization"), str ("Token t"))]) (str ("Authorization")) =
      some (str ("Token t")) := by
  have h := C2_header_merge_spec
    ⟨str ("http://h"), some (str ("d")), none, none, none, EndpointVersion.v1,
      [(str ("Authorization"), str ("Token t"))], none⟩ (str ("x"))
    ⟨str ("http://h/write"), [(str ("db"), str ("d"))],
      some (insertRange [(str ("Content-Type"), str ("application/json"))]
        [(str ("Authorization"), str ("Token t"))]), some (str ("x")), Method.post⟩
    (by decide)
  obtain ⟨hs, hhs, hhead, hlk⟩ := h
  have hseq : insertRange [(str ("Content-Type"), str ("application/json"))]
      [(str ("Authorization"), str ("Token t"))] = hs := by
    injection hhs with h3
  rw [hseq]
  rw [hlk (str ("Authorization"))]
  decide

/-- C9: the factory rejects a parsed URL with an empty scheme with the
ill-formed-URI error; rejects any scheme outside the fixed table
`{udp, tcp, http, https, unix}` with an error naming the scheme; and for an
`http`/`https` URL carrying embedded user-info it returns the constructed
HTTP transport with basic authentication for that user and password applied
automatically. -/
theorem C9_factory_spec (p : ParsedUrl) (v : EndpointVersion) :
    (p.protocol = [] → GetTransport p v =
      Except.error (CxxError.influxDB (str ("Ill-formed URI"))))
    ∧ (p.protocol ≠ [] → p.protocol ≠ str ("udp") → p.protocol ≠ str ("tcp") →
       p.protocol ≠ str ("http") → p.protocol ≠ str ("https") →
       p.protocol ≠ str ("unix") →
       GetTransport p v = Except.error
         (CxxError.influxDB (str ("Unrecognized backend ") ++ p.protocol)))
    ∧ (∀ t, (p.protocol = str ("http") ∨ p.protocol = str ("https")) →
       p.user ≠ [] → HTTP.construct p.url v = Except.ok t →
       GetTransport p v = Except.ok (TransportKind.http
         { t with basicAuth := some (p.user, p.password) })) := by
  refine ⟨?_, ?_, ?_⟩
  · intro h
    simp [GetTransport, h]
  · intro h1 h2 h3 h4 h5 h6
    simp [GetTransport, h1, h2, h3, h4, h5, h6]
  · intro t hp hu hc
    rcases hp with hp | hp
    · unfold GetTransport
      simp only [hp]
      rw [if_neg (by decide), if_neg (by decide), if_neg (by decide), if_pos trivial]
      unfold withHttpTransport
      rw [hc]
      simp [HTTP.setBasicAuthentication, hu]
    · unfold GetTransport
      simp only [hp]
      rw [if_neg (by decide), if_neg (by decide), if_neg (by decide),
        if_neg (by decide), if_pos trivial]
      unfold withHttpTransport
      rw [hc]
      simp [HTTP.setBasicAuthentication, hu]

/-- C9 witness: the unknown scheme `ftp` is rejected with an error naming it,
and an `http` URL with user-info yields a transport with basic auth set. -/
theorem C9_witness :
    GetTransport ⟨str ("ftp"), [], [], str ("ftp://h")⟩ EndpointVersion.v1 =
      Except.error (CxxError.influxDB (str ("Unrecognized backend ftp")))
    ∧ GetTransport ⟨str ("http"), str ("u"), str ("pw"), str ("http://h/?db=d")⟩
        EndpointVersion.v1 =
      Except.ok (TransportKind.http ⟨str ("http://h"), some (str ("d")), none, none,
        none, EndpointVersion.v1, [], some (str ("u"), str ("pw"))⟩) := by
  constructor
  · have h := (C9_factory_spec ⟨str ("ftp"), [], [], str ("ftp://h")⟩
      EndpointVersion.v1).2.1 (by decide) (by decide) (by decide) (by decide)
      (by decide) (by decide)
    exact h.trans (by decide)
  · have hc : HTTP.construct (str ("http://h/?db=d")) EndpointVersion.v1 =
        Except.ok ⟨str ("http://h"), some (str ("d")), none, none, none,
          EndpointVersion.v1, [], none⟩ := by decide
    have h := (C9_factory_spec ⟨str ("http"), str ("u"), str ("pw"),
      str ("http://h/?db=d")⟩ EndpointVersion.v1).2.2 _ (Or.inl rfl) (by decide) hc
    exact h.trans (by decide)

end InfluxSpec
